import Mathlib

/-!
Shallow embedding of the Module_12 contact-management service: the
authentication / session-lifecycle handlers (`src/routes/auth.py`) and the
ownership-scoped contact repository (`src/repository/contacts.py`).

Database rows are modelled as Lean structures, tables as lists, SQLAlchemy
queries as `List.filter` / `List.find?`, and nullable columns as `Option`.
HTTP handler outcomes are a sum of a normal result, an HTTP error status, and
an unhandled exception (`crash`, modelling a Python `AttributeError` escaping
the handler).
-/

namespace Module12

/-- A calendar date with year, month and day, modelling a Python `datetime.date`
(the SQL `extract('month', ·)` / `extract('day', ·)` operators read the
`month` / `day` fields). -/
structure Dt where
  year : Nat
  month : Nat
  day : Nat
deriving DecidableEq, Repr

/-- Kinds of signed tokens issued by the token service: access, refresh and
email-confirmation tokens, distinguished by an embedded scope claim. -/
inductive TokenKind where
  | access
  | refresh
  | emailConf
deriving DecidableEq, Repr

/-- Modelled from the spec: `src/services/auth.py` (the Token Service) is not
among the repository's files. A token embeds its kind and subject (user email);
signing, issued-at and expiry are abstracted, and each issuance carries a
distinct `nonce` so tokens issued at different moments differ, mirroring the
issued-at claim of a real signed token. -/
structure Token where
  kind : TokenKind
  sub : String
  nonce : Nat
deriving DecidableEq, Repr

/-- A row of the `users` table (`src/database/models.py`): id, username,
unique email, stored password hash, confirmation flag and the single currently
stored refresh token (nullable). -/
structure User where
  id : Nat
  username : String
  email : String
  password : String
  confirmed : Bool
  refresh_token : Option Token
deriving DecidableEq, Repr

/-- A row of the `contacts` table (`src/database/models.py`) together with its
owner set from the `user_m2m_contact` association table: `owners` is the list
of user ids related to this contact. All data columns are nullable in the
schema, hence `Option`. -/
structure Contact where
  id : Nat
  name : Option String
  surname : Option String
  email : Option String
  phone : Option String
  birthday : Option Dt
  additional_data : Option String
  owners : List Nat
deriving DecidableEq, Repr

/-! ### Contact repository (`src/repository/contacts.py`) -/

/-- Source `get_contact` (contacts.py:32): the first contact whose id matches and
whose owner set contains the requesting user's id —
`db.query(Contact).filter(and_(Contact.id == contact_id, Contact.users.any(id=user.id))).first()`. -/
def get_contact (contact_id : Nat) (user : User) (db : List Contact) : Option Contact :=
  db.find? (fun c => decide (c.id = contact_id ∧ user.id ∈ c.owners))

/-- A `ContactUpdate` payload after `dict(exclude_unset=True)` (schemas.py):
an outer `some` marks a field the caller explicitly supplied. `name`,
`surname` and `phone` are non-nullable in the schema, so a supplied value is a
plain string; `email`, `birthday` and `additional_data` are `Optional`, so a
supplied value may itself be null. -/
structure ContactUpdate where
  name : Option String
  surname : Option String
  phone : Option String
  email : Option (Option String)
  birthday : Option (Option Dt)
  additional_data : Option (Option String)
deriving DecidableEq, Repr

/-- The `setattr` loop of `update_contact` (contacts.py:71): each field present
in the exclude-unset dict overwrites the row's field, every other field keeps
its prior value. -/
def set_fields (contact_update : ContactUpdate) (c : Contact) : Contact :=
  { c with
    name := match contact_update.name with
      | some v => some v
      | none => c.name
    surname := match contact_update.surname with
      | some v => some v
      | none => c.surname
    phone := match contact_update.phone with
      | some v => some v
      | none => c.phone
    email := match contact_update.email with
      | some v => v
      | none => c.email
    birthday := match contact_update.birthday with
      | some v => v
      | none => c.birthday
    additional_data := match contact_update.additional_data with
      | some v => v
      | none => c.additional_data }

/-- Source `update_contact` (contacts.py:52): fetch via `get_contact`; when absent
return `None` leaving the table unchanged, otherwise apply the supplied fields
to the fetched row and commit it back. -/
def update_contact (contact_id : Nat) (contact_update : ContactUpdate) (user : User)
    (db : List Contact) : Option Contact × List Contact :=
  match get_contact contact_id user db with
  | none => (none, db)
  | some c =>
    let c' := set_fields contact_update c
    (some c', db.map (fun x => if x.id = c.id then c' else x))

/-- Source `delete_contact` (contacts.py:79): fetch via `get_contact`; when absent
return `None`, otherwise delete the row entirely and return a success
message. -/
def delete_contact (contact_id : Nat) (user : User) (db : List Contact) :
    Option String × List Contact :=
  match get_contact contact_id user db with
  | none => (none, db)
  | some c => (some "Contact deleted successfully", db.filter (fun x => decide (x.id ≠ c.id)))

/-- The birthday-window condition of `get_birthdays` (contacts.py:121): the
two-branch split on `end_date.day > start_date.day`, evaluated on the
birthday's month and day only (the year field is never consulted). -/
def birthday_in_window (start_date end_date : Dt) (b : Dt) : Bool :=
  if end_date.day > start_date.day then
    decide (b.month = start_date.month) && decide (start_date.day ≤ b.day) &&
      decide (b.day ≤ end_date.day)
  else
    (decide (b.month = start_date.month) && decide (start_date.day ≤ b.day)) ||
      (decide (b.month = end_date.month) && decide (b.day ≤ end_date.day))

/-- Source `get_birthdays` (contacts.py:101): the user's owned contacts filtered by
the two-branch month/day window condition. A row whose `birthday` column is
NULL satisfies neither `extract` comparison (SQL three-valued logic), so it is
never returned. -/
def get_birthdays (start_date end_date : Dt) (user : User) (db : List Contact) :
    List Contact :=
  (db.filter (fun c => decide (user.id ∈ c.owners))).filter (fun c =>
    match c.birthday with
    | none => false
    | some b => birthday_in_window start_date end_date b)

/-- One string filter of `get_contacts` (contacts.py:163-170): the condition
`Contact.<field> == value` is appended only when the parameter is truthy
(`if name:` …), so both `None` and the empty string impose no constraint. -/
def str_filter_cond (f : Option String) (x : Option String) : Bool :=
  match f with
  | some v => if v = "" then true else decide (x = some v)
  | none => true

/-- The birthday filter of `get_contacts` (contacts.py:171): a `date` value is
always truthy in Python, so any non-null birthday parameter constrains. -/
def date_filter_cond (f : Option Dt) (x : Option Dt) : Bool :=
  match f with
  | some d => decide (x = some d)
  | none => true

/-- Source `get_contacts` (contacts.py:136): the user's owned contacts, further
filtered by the conjunction of the per-field conditions of each truthy
parameter. -/
def get_contacts (name surname email phone : Option String) (birthday : Option Dt)
    (user : User) (db : List Contact) : List Contact :=
  (db.filter (fun c => decide (user.id ∈ c.owners))).filter (fun c =>
    str_filter_cond name c.name && str_filter_cond surname c.surname &&
    str_filter_cond email c.email && str_filter_cond phone c.phone &&
    date_filter_cond birthday c.birthday)

/-- Spec-side restatement of the birthday-window matching rule, written from
the specification's words (section 4.3): evaluated purely on month and day,
branching exactly on `endDate.day > startDate.day`. Compared against the
source-derived `get_birthdays` below. -/
def birthday_matches_spec (startDate endDate : Dt) (m d : Nat) : Prop :=
  if endDate.day > startDate.day then
    m = startDate.month ∧ startDate.day ≤ d ∧ d ≤ endDate.day
  else
    (m = startDate.month ∧ startDate.day ≤ d) ∨ (m = endDate.month ∧ d ≤ endDate.day)

/-- Spec-side restatement of the exact-match search condition: every supplied
filter whose value is truthy (non-null, and non-empty for the string fields)
must equal the contact's field exactly. Compared against the source-derived
`get_contacts` below. -/
def contact_matches_filters (name surname email phone : Option String) (bday : Option Dt)
    (c : Contact) : Prop :=
  (∀ v, name = some v → v ≠ "" → c.name = some v) ∧
  (∀ v, surname = some v → v ≠ "" → c.surname = some v) ∧
  (∀ v, email = some v → v ≠ "" → c.email = some v) ∧
  (∀ v, phone = some v → v ≠ "" → c.phone = some v) ∧
  (∀ d, bday = some d → c.birthday = some d)

/-! ### Token service and users repository

`src/services/auth.py` and `src/repository/users.py` are imported by the route
modules but are not among the repository's source files; the definitions below
are modelled from the spec (sections 4.1 and 4.2) and from how the routes call
them. -/

/-- Modelled from the spec: `auth_service.get_password_hash` of the missing
`src/services/auth.py`. The hash is one-way and salted in the source; here it
is an injective tagging of the plaintext, so that verification succeeds exactly
on the original password (spec section 8's password round-trip property). -/
def get_password_hash (plain : String) : String :=
  "hashed:" ++ plain

/-- Modelled from the spec: `auth_service.verify_password` of the missing
`src/services/auth.py` — true exactly when the stored hash is the hash of the
supplied plaintext. -/
def verify_password (plain stored : String) : Bool :=
  decide (stored = get_password_hash plain)

/-- Modelled from the spec: `auth_service.create_access_token` of the missing
`src/services/auth.py` — a token of kind access with subject the given email;
the caller supplies the issuance nonce. -/
def create_access_token (email : String) (nonce : Nat) : Token :=
  { kind := TokenKind.access, sub := email, nonce := nonce }

/-- Modelled from the spec: `auth_service.create_refresh_token` of the missing
`src/services/auth.py` — a token of kind refresh with subject the given
email. -/
def create_refresh_token (email : String) (nonce : Nat) : Token :=
  { kind := TokenKind.refresh, sub := email, nonce := nonce }

/-- Modelled from the spec: `auth_service.decode_refresh_token` of the missing
`src/services/auth.py` — yields the subject email when the token's kind is
refresh, and fails (the route surfaces Unauthorized) on a kind mismatch;
signature and expiry checks are abstracted into decode success. -/
def decode_refresh_token (t : Token) : Option String :=
  if t.kind = TokenKind.refresh then some t.sub else none

/-- Modelled from the spec: `auth_service.get_email_from_token` of the missing
`src/services/auth.py` — yields the subject email when the token's kind is
email-confirmation. -/
def get_email_from_token (t : Token) : Option String :=
  if t.kind = TokenKind.emailConf then some t.sub else none

/-- Modelled from the spec: `repository_users.get_user_by_email` of the missing
`src/repository/users.py` — the user record whose unique email matches, or
`None`. -/
def get_user_by_email (email : String) (users : List User) : Option User :=
  users.find? (fun u => decide (u.email = email))

/-- Modelled from the spec: `repository_users.update_token` of the missing
`src/repository/users.py` — persists `token` as the given user's stored
refresh token, overwriting any prior value. -/
def update_token (user : User) (token : Option Token) (users : List User) : List User :=
  users.map (fun v => if v.email = user.email then { v with refresh_token := token } else v)

/-- Modelled from the spec: `repository_users.confirmed_email` of the missing
`src/repository/users.py` — sets the `confirmed` flag of the user with the
given email to true. -/
def set_confirmed (email : String) (users : List User) : List User :=
  users.map (fun v => if v.email = email then { v with confirmed := true } else v)

/-- Modelled from the spec: `repository_users.create_user` of the missing
`src/repository/users.py` — appends a new user record with the hashed
password, unconfirmed and with no refresh token. -/
def create_user (username email password_hash : String) (users : List User) : List User :=
  users ++ [{ id := users.length, username := username, email := email,
              password := password_hash, confirmed := false, refresh_token := none }]

/-! ### Auth route handlers (`src/routes/auth.py`) -/

/-- Mutable server state the auth handlers touch: the users table and the
token-issuance counter (source of fresh nonces). -/
structure AuthState where
  users : List User
  counter : Nat
deriving DecidableEq, Repr

/-- Outcome of a route handler: a normal result, an HTTP error status raised
as `HTTPException`, or an unhandled Python exception escaping the handler
(`crash`, e.g. an `AttributeError` on `None`). -/
inductive HRes (α : Type) where
  | crash : HRes α
  | err : Nat → HRes α
  | ok : α → HRes α
deriving DecidableEq, Repr

/-- Source `signup` (auth.py:19): 409 Conflict when the email is already registered,
otherwise hash the password and create the (unconfirmed) user. -/
def signup (username email password : String) (st : AuthState) : HRes User × AuthState :=
  match get_user_by_email email st.users with
  | some _ => (HRes.err 409, st)
  | none =>
    let user : User := { id := st.users.length, username := username, email := email,
                         password := get_password_hash password, confirmed := false,
                         refresh_token := none }
    (HRes.ok user, { st with users := create_user username email (get_password_hash password) st.users })

/-- Source `login` (auth.py:51): 401 when the user is absent, not confirmed, or the
password does not verify; otherwise issue a fresh access+refresh pair and
persist the new refresh token. -/
def login (email password : String) (st : AuthState) : HRes (Token × Token) × AuthState :=
  match get_user_by_email email st.users with
  | none => (HRes.err 401, st)
  | some user =>
    if user.confirmed = false then (HRes.err 401, st)
    else if verify_password password user.password = false then (HRes.err 401, st)
    else
      let access := create_access_token user.email st.counter
      let refresh := create_refresh_token user.email (st.counter + 1)
      (HRes.ok (access, refresh),
       { users := update_token user (some refresh) st.users, counter := st.counter + 2 })

/-- Source `refresh_token` (auth.py:82): decode the presented refresh token, look the
user up by the embedded email **without a None check** (absent user crashes on
`user.refresh_token`); when the presented token is not the stored one, revoke
the stored token and fail 401; otherwise issue a fresh pair and store the new
refresh token. -/
def refresh_token (tok : Token) (st : AuthState) : HRes (Token × Token) × AuthState :=
  match decode_refresh_token tok with
  | none => (HRes.err 401, st)
  | some email =>
    match get_user_by_email email st.users with
    | none => (HRes.crash, st)
    | some user =>
      if user.refresh_token ≠ some tok then
        (HRes.err 401, { st with users := update_token user none st.users })
      else
        let access := create_access_token email st.counter
        let refresh := create_refresh_token email (st.counter + 1)
        (HRes.ok (access, refresh),
         { users := update_token user (some refresh) st.users, counter := st.counter + 2 })

/-- Source `confirmed_email` (auth.py:113): decode the confirmation token; 400 Bad
Request when the subject resolves to no user; an "already confirmed" message
(no error) when the user is confirmed; otherwise set the confirmed flag. -/
def confirmed_email (tok : Token) (st : AuthState) : HRes String × AuthState :=
  match get_email_from_token tok with
  | none => (HRes.err 422, st)
  | some email =>
    match get_user_by_email email st.users with
    | none => (HRes.err 400, st)
    | some user =>
      if user.confirmed then (HRes.ok "Your email is already confirmed", st)
      else (HRes.ok "Email confirmed", { st with users := set_confirmed email st.users })

/-- Source `request_email` (auth.py:141): looks the user up by email and reads
`user.confirmed` **before** the `if user:` existence check, so an unregistered
email crashes on the None dereference; a confirmed user gets the no-op
message, an unconfirmed one the generic success message (the email send is a
background task and does not affect state here). -/
def request_email (email : String) (st : AuthState) : HRes String × AuthState :=
  match get_user_by_email email st.users with
  | none => (HRes.crash, st)
  | some user =>
    if user.confirmed then (HRes.ok "Your email is already confirmed", st)
    else (HRes.ok "Check your email for confirmation.", st)

/-- The auth operations in scope, as state transformers, for the one-way
confirmation invariant. -/
inductive AuthOp where
  | signupOp (username email password : String)
  | loginOp (email password : String)
  | refreshOp (tok : Token)
  | confirmOp (tok : Token)
  | requestOp (email : String)
deriving DecidableEq, Repr

/-- The state after running one auth operation. -/
def applyOp (op : AuthOp) (st : AuthState) : AuthState :=
  match op with
  | AuthOp.signupOp a b c => (signup a b c st).2
  | AuthOp.loginOp a b => (login a b st).2
  | AuthOp.refreshOp t => ( refresh_token t st).2
  | AuthOp.confirmOp t => (confirmed_email t st).2
  | AuthOp.requestOp e => (request_email e st).2

/-! ### Concrete fixtures for witnesses -/

/-- A stored refresh token for the fixture user. -/
def wTok : Token := { kind := TokenKind.refresh, sub := "a@b.c", nonce := 0 }

/-- A confirmed fixture user holding `wTok` as stored refresh token. -/
def wUser : User :=
  { id := 1, username := "tester", email := "a@b.c", password := "hashed:pw",
    confirmed := true, refresh_token := some wTok }

/-- A fixture server state with one user and issuance counter past the stored
token's nonce. -/
def wState : AuthState := { users := [wUser], counter := 5 }

/-- An email-confirmation token for the fixture user. -/
def cTok : Token := { kind := TokenKind.emailConf, sub := "a@b.c", nonce := 2 }

/-- A fixture contact owner (user id 7). -/
def oUser : User :=
  { id := 7, username := "owner", email := "o@x", password := "hashed:pw",
    confirmed := true, refresh_token := none }

/-- A fixture user who does not own `aContact` (user id 8). -/
def bUser : User :=
  { id := 8, username := "other", email := "b@x", password := "hashed:pw",
    confirmed := true, refresh_token := none }

/-- A fixture contact owned only by user id 7, with birthday June 5. -/
def aContact : Contact :=
  { id := 1, name := some "Ann", surname := some "Lee", email := some "ann@x",
    phone := some "123", birthday := some { year := 1990, month := 6, day := 5 },
    additional_data := none, owners := [7] }

/-- An update payload supplying no field. -/
def noUpd : ContactUpdate :=
  { name := none, surname := none, phone := none, email := none,
    birthday := none, additional_data := none }

/-- An update payload supplying only the phone field. -/
def phoneUpd : ContactUpdate :=
  { name := none, surname := none, phone := some "999", email := none,
    birthday := none, additional_data := none }

/-- June 1st of 2024, start of a non-wrapping fixture window. -/
def d1 : Dt := { year := 2024, month := 6, day := 1 }

/-- June 8th of 2024, end of a non-wrapping fixture window. -/
def d8 : Dt := { year := 2024, month := 6, day := 8 }

/-! ### Helper lemmas -/

/-- Mapping a function that does not change whether the predicate holds
commutes with `find?`. -/
theorem find?_map_comm {α : Type} (g : α → α) (p : α → Bool) (hp : ∀ v, p (g v) = p v)
    (l : List α) : (l.map g).find? p = (l.find? p).map g := by
  induction l with
  | nil => rfl
  | cons a l ih =>
    rw [List.map_cons]
    by_cases h : p a = true
    · rw [List.find?_cons_of_pos _ (by rw [hp]; exact h), List.find?_cons_of_pos _ h]
      rfl
    · rw [List.find?_cons_of_neg _ (by rw [hp]; simpa using h),
        List.find?_cons_of_neg _ (by simpa using h)]
      exact ih

/-- Looking a user up by email in a table rewritten by an email-preserving
row function returns the rewritten row. -/
theorem get_user_by_email_map (g : User → User) (hg : ∀ v, (g v).email = v.email)
    (e : String) (l : List User) :
    get_user_by_email e (l.map g) = (get_user_by_email e l).map g := by
  unfold get_user_by_email
  exact find?_map_comm g _ (fun v => by rw [hg]) l

/-- After `update_token u t`, looking `u` up again by its email yields `u`
with the stored refresh token replaced by `t`. -/
theorem get_user_by_email_update_token (e : String) (u : User) (t : Option Token)
    (l : List User) (h : get_user_by_email e l = some u) :
    get_user_by_email e (update_token u t l) = some { u with refresh_token := t } := by
  unfold update_token
  rw [get_user_by_email_map _ (fun v => by by_cases hv : v.email = u.email <;> simp [hv]), h]
  simp

/-- After `set_confirmed e`, looking the user up again by email `e` yields the
row with the confirmed flag set. -/
theorem get_user_by_email_set_confirmed (e : String) (u : User) (l : List User)
    (h : get_user_by_email e l = some u) :
    get_user_by_email e (set_confirmed e l) = some { u with confirmed := true } := by
  have he : u.email = e := by simpa using List.find?_some h
  unfold set_confirmed
  rw [get_user_by_email_map _ (fun v => by by_cases hv : v.email = e <;> simp [hv]), h]
  simp [he]

/-- Appending rows to the users table does not change a successful lookup. -/
theorem get_user_by_email_append (e : String) (u : User) (l l' : List User)
    (h : get_user_by_email e l = some u) :
    get_user_by_email e (l ++ l') = some u := by
  unfold get_user_by_email at *
  rw [List.find?_append, h]
  rfl

/-- A confirmed user stays confirmed under any email-preserving row rewrite
that never unsets the flag. -/
theorem exists_confirmed_of_map (g : User → User) (hg : ∀ v, (g v).email = v.email)
    (hgc : ∀ v, v.confirmed = true → (g v).confirmed = true)
    (e : String) (l : List User) (u : User)
    (h : get_user_by_email e l = some u) (hc : u.confirmed = true) :
    ∃ u', get_user_by_email e (l.map g) = some u' ∧ u'.confirmed = true := by
  refine ⟨g u, ?_, hgc u hc⟩
  rw [get_user_by_email_map g hg, h]
  rfl

/-- No auth operation in scope ever turns a user's confirmed flag back off. -/
theorem confirmed_one_way (op : AuthOp) (e : String) (st : AuthState) (u : User)
    (h : get_user_by_email e st.users = some u) (hc : u.confirmed = true) :
    ∃ u', get_user_by_email e (applyOp op st).users = some u' ∧ u'.confirmed = true := by
  cases op with
  | signupOp a b c =>
    cases hb : get_user_by_email b st.users with
    | some v =>
      simp only [applyOp, signup, hb]
      exact ⟨u, h, hc⟩
    | none =>
      simp only [applyOp, signup, hb, create_user]
      exact ⟨u, get_user_by_email_append e u _ _ h, hc⟩
  | loginOp a b =>
    cases hb : get_user_by_email a st.users with
    | none =>
      simp only [applyOp, login, hb]
      exact ⟨u, h, hc⟩
    | some v =>
      by_cases hv1 : v.confirmed = false
      · simp only [applyOp, login, hb, hv1, if_true]
        exact ⟨u, h, hc⟩
      · by_cases hv2 : verify_password b v.password = false
        · simp only [applyOp, login, hb, hv1, hv2, if_false, if_true]
          exact ⟨u, h, hc⟩
        · simp only [applyOp, login, hb, hv1, hv2, if_false, update_token]
          refine exists_confirmed_of_map _ ?_ ?_ e st.users u h hc
          · intro w
            by_cases hw : w.email = v.email <;> simp [hw]
          · intro w hw
            by_cases hw2 : w.email = v.email <;> simp [hw2, hw]
  | refreshOp t =>
    cases hd : decode_refresh_token t with
    | none =>
      simp only [applyOp, refresh_token, hd]
      exact ⟨u, h, hc⟩
    | some b =>
      cases hb : get_user_by_email b st.users with
      | none =>
        simp only [applyOp, refresh_token, hd, hb]
        exact ⟨u, h, hc⟩
      | some v =>
        by_cases hv : v.refresh_token = some t
        · simp only [applyOp, refresh_token, hd, hb, hv, ne_eq, not_true_eq_false,
            if_false, update_token]
          refine exists_confirmed_of_map _ ?_ ?_ e st.users u h hc
          · intro w
            by_cases hw : w.email = v.email <;> simp [hw]
          · intro w hw
            by_cases hw2 : w.email = v.email <;> simp [hw2, hw]
        · simp only [applyOp, refresh_token, hd, hb, hv, ne_eq, not_false_eq_true,
            if_true, update_token]
          refine exists_confirmed_of_map _ ?_ ?_ e st.users u h hc
          · intro w
            by_cases hw : w.email = v.email <;> simp [hw]
          · intro w hw
            by_cases hw2 : w.email = v.email <;> simp [hw2, hw]
  | confirmOp t =>
    cases hd : get_email_from_token t with
    | none =>
      simp only [applyOp, confirmed_email, hd]
      exact ⟨u, h, hc⟩
    | some b =>
      cases hb : get_user_by_email b st.users with
      | none =>
        simp only [applyOp, confirmed_email, hd, hb]
        exact ⟨u, h, hc⟩
      | some v =>
        by_cases hv : v.confirmed = true
        · simp only [applyOp, confirmed_email, hd, hb, hv, if_true]
          exact ⟨u, h, hc⟩
        · simp only [applyOp, confirmed_email, hd, hb, hv, if_false, set_confirmed]
          refine exists_confirmed_of_map _ ?_ ?_ e st.users u h hc
          · intro w
            by_cases hw : w.email = b <;> simp [hw]
          · intro w hw
            by_cases hw2 : w.email = b <;> simp [hw2, hw]
  | requestOp b =>
    cases hb : get_user_by_email b st.users with
    | none =>
      simp only [applyOp, request_email, hb]
      exact ⟨u, h, hc⟩
    | some v =>
      by_cases hv : v.confirmed = true
      · simp only [applyOp, request_email, hb, hv, if_true]
        exact ⟨u, h, hc⟩
      · simp only [applyOp, request_email, hb, hv, if_false]
        exact ⟨u, h, hc⟩

/-- A contact with the same primary key as a member of a duplicate-free table
is that member. -/
theorem contact_eq_of_id_eq {db : List Contact} {x C : Contact}
    (hids : (db.map Contact.id).Nodup) (hx : x ∈ db) (hC : C ∈ db)
    (hid : x.id = C.id) : x = C :=
  List.inj_on_of_nodup_map hids hx hC hid

/-- The source's boolean window test agrees with the spec-side month/day
predicate. -/
theorem birthday_in_window_iff (s e b : Dt) :
    birthday_in_window s e b = true ↔ birthday_matches_spec s e b.month b.day := by
  unfold birthday_in_window birthday_matches_spec
  by_cases hbr : e.day > s.day <;> simp [hbr, and_assoc]

/-! ### Claim theorems -/

/-- C9: in `refresh_token`, the user looked up by the token's embedded email is
dereferenced with no None check, so a refresh token whose subject matches no
user reaches the unguarded null dereference (`crash`) rather than the
Unauthorized branch. -/
theorem refresh_unknown_subject_crash (st : AuthState) (tok : Token)
    (hk : tok.kind = TokenKind.refresh)
    (hu : get_user_by_email tok.sub st.users = none) :
    refresh_token tok st = (HRes.crash, st) := by
  simp [refresh_token, decode_refresh_token, hk, hu]

/-- C9 witness: a concrete validly-kinded refresh token over an empty users
table crashes the handler. -/
theorem refresh_unknown_subject_crash_witness :
    refresh_token { kind := TokenKind.refresh, sub := "ghost@example.com", nonce := 0 }
        { users := [], counter := 0 } =
      (HRes.crash, { users := [], counter := 0 }) :=
  refresh_unknown_subject_crash { users := [], counter := 0 }
    { kind := TokenKind.refresh, sub := "ghost@example.com", nonce := 0 } rfl rfl

/-- C4 (code slip): `request_email` reads `user.confirmed` before its `if user:`
existence check, so an email that belongs to no user crashes on the None
dereference instead of returning the generic success message. -/
theorem request_email_absent_email_crash :
    request_email "ghost@example.com" { users := [], counter := 0 } =
      (HRes.crash, { users := [], counter := 0 }) := rfl

/-- C10: `get_birthdays` never returns a contact whose birthday is null — a
NULL `birthday` satisfies neither extract-comparison branch. -/
theorem get_birthdays_requires_birthday (s e : Dt) (u : User) (db : List Contact)
    (c : Contact) (h : c ∈ get_birthdays s e u db) : c.birthday ≠ none := by
  unfold get_birthdays at h
  have h2 := (List.mem_filter.mp h).2
  intro hb
  rw [hb] at h2
  simp at h2

/-- C10 witness: the fixture June-5 contact is returned for the June 1–8
window, and indeed carries a birthday. -/
theorem get_birthdays_requires_birthday_witness :
    aContact.birthday ≠ none :=
  get_birthdays_requires_birthday d1 d8 oUser [aContact] aContact (by decide)

/-- C3: membership in `get_birthdays` is exactly ownership plus the spec's
two-branch month/day window condition, which branches on
`endDate.day > startDate.day` and never consults the birth year. -/
theorem get_birthdays_window_characterization (s e : Dt) (u : User) (db : List Contact)
    (c : Contact) :
    c ∈ get_birthdays s e u db ↔
      c ∈ db ∧ u.id ∈ c.owners ∧
        ∃ b, c.birthday = some b ∧ birthday_matches_spec s e b.month b.day := by
  unfold get_birthdays
  cases hb : c.birthday with
  | none =>
    simp [List.mem_filter, hb]
  | some b =>
    simp only [List.mem_filter, hb, birthday_in_window_iff, decide_eq_true_eq,
      Option.some.injEq, and_assoc]
    constructor
    · rintro ⟨hdb, hown, hcond⟩
      exact ⟨hdb, hown, b, rfl, hcond⟩
    · rintro ⟨hdb, hown, b', hb', hcond⟩
      exact ⟨hdb, hown, hb' ▸ hcond⟩

/-- C2: a user outside a contact's owner set can neither see nor touch it —
direct lookup, update and delete all come back None with the table unchanged,
and neither the search nor the birthday query ever lists it. -/
theorem contact_ownership_isolation (db : List Contact) (C : Contact) (B : User)
    (upd : ContactUpdate) (s e : Dt) (name surname email phone : Option String)
    (bday : Option Dt)
    (hids : (db.map Contact.id).Nodup) (hC : C ∈ db) (hB : B.id ∉ C.owners) :
    get_contact C.id B db = none ∧
    update_contact C.id upd B db = (none, db) ∧
    delete_contact C.id B db = (none, db) ∧
    C ∉ get_contacts name surname email phone bday B db ∧
    C ∉ get_birthdays s e B db := by
  have hget : get_contact C.id B db = none := by
    unfold get_contact
    rw [List.find?_eq_none]
    intro x hx
    simp only [decide_eq_true_eq]
    rintro ⟨hid, hown⟩
    exact hB (contact_eq_of_id_eq hids hx hC hid ▸ hown)
  refine ⟨hget, ?_, ?_, ?_, ?_⟩
  · unfold update_contact
    rw [hget]
  · unfold delete_contact
    rw [hget]
  · intro hmem
    unfold get_contacts at hmem
    have := (List.mem_filter.mp (List.mem_filter.mp hmem).1).2
    exact hB (by simpa using this)
  · intro hmem
    unfold get_birthdays at hmem
    have := (List.mem_filter.mp (List.mem_filter.mp hmem).1).2
    exact hB (by simpa using this)

/-- C2 witness: the fixture non-owner is blind to the fixture contact under
every operation. -/
theorem contact_ownership_isolation_witness :
    get_contact aContact.id bUser [aContact] = none ∧
    update_contact aContact.id noUpd bUser [aContact] = (none, [aContact]) ∧
    delete_contact aContact.id bUser [aContact] = (none, [aContact]) ∧
    aContact ∉ get_contacts (some "Ann") none none none none bUser [aContact] ∧
    aContact ∉ get_birthdays d1 d8 bUser [aContact] :=
  contact_ownership_isolation [aContact] aContact bUser noUpd d1 d8
    (some "Ann") none none none none (by decide) (by decide) (by decide)

/-- C5: `update_contact` overwrites exactly the fields of the exclude-unset
payload and keeps every unsupplied field, returns the updated row, and leaves
the table untouched when the contact does not exist for this caller. -/
theorem update_contact_partial_merge (cid : Nat) (upd : ContactUpdate) (u : User)
    (db : List Contact) :
    ((∀ x ∈ db, ¬(x.id = cid ∧ u.id ∈ x.owners)) →
      update_contact cid upd u db = (none, db)) ∧
    (∀ c, get_contact cid u db = some c →
      ∃ c', update_contact cid upd u db =
          (some c', db.map (fun x => if x.id = c.id then c' else x)) ∧
        c'.id = c.id ∧
        (∀ v, upd.name = some v → c'.name = some v) ∧
        (upd.name = none → c'.name = c.name) ∧
        (∀ v, upd.surname = some v → c'.surname = some v) ∧
        (upd.surname = none → c'.surname = c.surname) ∧
        (∀ v, upd.phone = some v → c'.phone = some v) ∧
        (upd.phone = none → c'.phone = c.phone) ∧
        (∀ v, upd.email = some v → c'.email = v) ∧
        (upd.email = none → c'.email = c.email) ∧
        (∀ v, upd.birthday = some v → c'.birthday = v) ∧
        (upd.birthday = none → c'.birthday = c.birthday) ∧
        (∀ v, upd.additional_data = some v → c'.additional_data = v) ∧
        (upd.additional_data = none → c'.additional_data = c.additional_data) ∧
        (∀ x ∈ db, x.id ≠ c.id → x ∈ (update_contact cid upd u db).2)) := by
  constructor
  · intro habs
    have hget : get_contact cid u db = none := by
      unfold get_contact
      rw [List.find?_eq_none]
      intro x hx
      simp only [decide_eq_true_eq]
      exact habs x hx
    unfold update_contact
    rw [hget]
  · intro c hg
    refine ⟨set_fields upd c, ?_, rfl, ?_, ?_, ?_, ?_, ?_, ?_, ?_, ?_, ?_, ?_, ?_, ?_, ?_⟩
    · unfold update_contact
      rw [hg]
    · intro v hv
      simp [set_fields, hv]
    · intro hv
      simp [set_fields, hv]
    · intro v hv
      simp [set_fields, hv]
    · intro hv
      simp [set_fields, hv]
    · intro v hv
      simp [set_fields, hv]
    · intro hv
      simp [set_fields, hv]
    · intro v hv
      simp [set_fields, hv]
    · intro hv
      simp [set_fields, hv]
    · intro v hv
      simp [set_fields, hv]
    · intro hv
      simp [set_fields, hv]
    · intro v hv
      simp [set_fields, hv]
    · intro hv
      simp [set_fields, hv]
    · intro x hx hne
      unfold update_contact
      rw [hg]
      exact List.mem_map.mpr ⟨x, hx, if_neg hne⟩

/-- C5 witness: updating only the phone of the fixture contact leaves name,
surname and birthday at their prior values and sets the phone. -/
theorem update_contact_partial_merge_witness :
    ∃ c', (update_contact 1 phoneUpd oUser [aContact]).1 = some c' ∧
      c'.name = aContact.name ∧ c'.surname = aContact.surname ∧
      c'.birthday = aContact.birthday ∧ c'.phone = some "999" := by
  obtain ⟨c', heq, hid, hns, hnn, hss, hsn, hps, hpn, hes, hen, hbs, hbn, has, han, hframe⟩ :=
    (update_contact_partial_merge 1 phoneUpd oUser [aContact]).2 aContact (by decide)
  refine ⟨c', ?_, hnn rfl, hsn rfl, hbn rfl, hps "999" rfl⟩
  rw [heq]

/-- The source's string-filter condition agrees with the spec-side reading:
every supplied, non-empty value must match exactly. -/
theorem str_filter_cond_iff (f : Option String) (x : Option String) :
    str_filter_cond f x = true ↔ ∀ v, f = some v → v ≠ "" → x = some v := by
  unfold str_filter_cond
  cases f with
  | none => simp
  | some v => by_cases hv : v = "" <;> simp [hv]

/-- The source's date-filter condition agrees with the spec-side reading:
any supplied birthday value must match exactly. -/
theorem date_filter_cond_iff (f : Option Dt) (x : Option Dt) :
    date_filter_cond f x = true ↔ ∀ d, f = some d → x = some d := by
  unfold date_filter_cond
  cases f <;> simp

/-- C6 counterexample: with a supplied (non-null) empty-string name filter,
`get_contacts` still returns a contact whose name does not equal that filter
value — the claim's "every supplied (non-null) filter is matched exactly"
fails at this input. -/
theorem get_contacts_empty_filter_cex :
    aContact ∈ get_contacts (some "") none none none none oUser [aContact] ∧
      aContact.name ≠ some "" := by
  exact ⟨by decide, by decide⟩

/-- C6 (amended): membership in `get_contacts` is exactly ownership plus exact
equality on every supplied filter that is truthy — non-null, and non-empty for
the four string filters; an empty-string filter is ignored like an omitted
one, and with no filters (or only falsy ones) the caller's full contact set is
returned. -/
theorem get_contacts_filter_characterization (name surname email phone : Option String)
    (bday : Option Dt) (u : User) (db : List Contact) (c : Contact) :
    c ∈ get_contacts name surname email phone bday u db ↔
      c ∈ db ∧ u.id ∈ c.owners ∧
        contact_matches_filters name surname email phone bday c := by
  unfold get_contacts contact_matches_filters
  simp only [List.mem_filter, Bool.and_eq_true, decide_eq_true_eq,
    str_filter_cond_iff, date_filter_cond_iff, and_assoc]

/-- C7: `confirmed_email` fails 400 when the token's subject resolves to no
user; confirming a confirmed user returns the already-confirmed message with
the state untouched; otherwise the confirmed flag is set — and no auth
operation in scope ever sets a confirmed flag back to false. -/
theorem confirm_email_idempotent_one_way (st : AuthState) (tok : Token)
    (hk : tok.kind = TokenKind.emailConf) :
    (get_user_by_email tok.sub st.users = none →
      confirmed_email tok st = (HRes.err 400, st)) ∧
    (∀ u, get_user_by_email tok.sub st.users = some u → u.confirmed = true →
      confirmed_email tok st = (HRes.ok "Your email is already confirmed", st)) ∧
    (∀ u, get_user_by_email tok.sub st.users = some u → u.confirmed = false →
      (confirmed_email tok st).1 = HRes.ok "Email confirmed" ∧
      get_user_by_email tok.sub (confirmed_email tok st).2.users =
        some { u with confirmed := true }) ∧
    (∀ op e u, get_user_by_email e st.users = some u → u.confirmed = true →
      ∃ u', get_user_by_email e (applyOp op st).users = some u' ∧ u'.confirmed = true) := by
  have hd : get_email_from_token tok = some tok.sub := by
    simp [get_email_from_token, hk]
  refine ⟨?_, ?_, ?_, ?_⟩
  · intro hu
    simp [confirmed_email, hd, hu]
  · intro u hu hc
    simp [confirmed_email, hd, hu, hc]
  · intro u hu hc
    refine ⟨by simp [confirmed_email, hd, hu, hc], ?_⟩
    simp only [confirmed_email, hd, hu, hc]
    exact get_user_by_email_set_confirmed tok.sub u st.users hu
  · intro op e u hu hc
    exact confirmed_one_way op e st u hu hc

/-- C7 witness: confirming the already-confirmed fixture user returns the
already-confirmed message and leaves the state unchanged. -/
theorem confirm_email_idempotent_one_way_witness :
    confirmed_email cTok wState = (HRes.ok "Your email is already confirmed", wState) :=
  (confirm_email_idempotent_one_way wState cTok rfl).2.1 wUser (by decide) (by decide)

/-- C8: `login` fails 401 exactly when the user is absent, unconfirmed, or the
password does not verify; on success it issues a fresh access+refresh pair and
persists the new refresh token, overwriting any previously stored one. -/
theorem login_error_and_rotation (email password : String) (st : AuthState) :
    ((login email password st).1 = HRes.err 401 ↔
      (get_user_by_email email st.users = none ∨
        ∃ u, get_user_by_email email st.users = some u ∧
          (u.confirmed = false ∨ verify_password password u.password = false))) ∧
    (∀ u, get_user_by_email email st.users = some u → u.confirmed = true →
      verify_password password u.password = true →
      ∃ a r, (login email password st).1 = HRes.ok (a, r) ∧
        a.kind = TokenKind.access ∧ r.kind = TokenKind.refresh ∧
        a.sub = u.email ∧ r.sub = u.email ∧
        (∀ t : Token, t.nonce < st.counter → a ≠ t ∧ r ≠ t) ∧
        get_user_by_email email (login email password st).2.users =
          some { u with refresh_token := some r }) := by
  cases hu : get_user_by_email email st.users with
  | none =>
    refine ⟨?_, ?_⟩
    · simp [login, hu]
    · intro u h
      simp at h
  | some u =>
    by_cases hc : u.confirmed = false
    · refine ⟨?_, ?_⟩
      · simp [login, hu, hc]
      · intro u' hu' hc' hv'
        injection hu' with he
        subst he
        simp [hc] at hc'
    · by_cases hv : verify_password password u.password = false
      · refine ⟨?_, ?_⟩
        · simp [login, hu, hc, hv]
        · intro u' hu' hc' hv'
          injection hu' with he
          subst he
          simp [hv] at hv'
      · refine ⟨?_, ?_⟩
        · constructor
          · intro h
            simp [login, hu, hc, hv] at h
          · rintro (h | ⟨u', hu', h' | h'⟩)
            · simp at h
            · injection hu' with he
              subst he
              exact absurd h' hc
            · injection hu' with he
              subst he
              exact absurd h' hv
        · intro u' hu' hc' hv'
          injection hu' with he
          subst he
          have hlogin : login email password st =
              (HRes.ok (create_access_token u.email st.counter,
                  create_refresh_token u.email (st.counter + 1)),
                { users := update_token u
                    (some (create_refresh_token u.email (st.counter + 1))) st.users,
                  counter := st.counter + 2 }) := by
            simp only [login, hu]
            rw [if_neg hc, if_neg hv]
          refine ⟨create_access_token u.email st.counter,
            create_refresh_token u.email (st.counter + 1), ?_, rfl, rfl, rfl, rfl, ?_, ?_⟩
          · rw [hlogin]
          · intro t ht
            constructor
            · intro heq
              rw [← heq] at ht
              simp only [create_access_token] at ht
              omega
            · intro heq
              rw [← heq] at ht
              simp only [create_refresh_token] at ht
              omega
          · rw [hlogin]
            exact get_user_by_email_update_token email u
              (some (create_refresh_token u.email (st.counter + 1))) st.users hu

/-- C8 witness: a login for an unregistered email fails 401. -/
theorem login_error_and_rotation_witness :
    (login "ghost@example.com" "pw" { users := [], counter := 0 }).1 = HRes.err 401 :=
  (login_error_and_rotation "ghost@example.com" "pw" { users := [], counter := 0 }).1.mpr
    (Or.inl rfl)

/-- C1: for a refresh token decoding to an existing user's email, a presented
token different from the stored one revokes the stored token and fails 401; a
matching one succeeds with a fresh pair, the new refresh token is stored, and
replaying the old token afterwards fails 401 and clears the stored token. -/
theorem refresh_rotation_spec (st : AuthState) (tok : Token) (u : User)
    (hk : tok.kind = TokenKind.refresh)
    (hu : get_user_by_email tok.sub st.users = some u)
    (hn : tok.nonce < st.counter) :
    (u.refresh_token ≠ some tok →
      refresh_token tok st =
        (HRes.err 401, { st with users := update_token u none st.users }) ∧
      get_user_by_email tok.sub (refresh_token tok st).2.users =
        some { u with refresh_token := none }) ∧
    (u.refresh_token = some tok →
      ∃ a r, (refresh_token tok st).1 = HRes.ok (a, r) ∧
        a.kind = TokenKind.access ∧ r.kind = TokenKind.refresh ∧
        a.sub = tok.sub ∧ r.sub = tok.sub ∧ r ≠ tok ∧
        get_user_by_email tok.sub (refresh_token tok st).2.users =
          some { u with refresh_token := some r } ∧
        (refresh_token tok (refresh_token tok st).2).1 = HRes.err 401 ∧
        get_user_by_email tok.sub (refresh_token tok (refresh_token tok st).2).2.users =
          some { u with refresh_token := none }) := by
  have hd : decode_refresh_token tok = some tok.sub := by
    simp [decode_refresh_token, hk]
  constructor
  · intro hne
    have hr : refresh_token tok st =
        (HRes.err 401, { st with users := update_token u none st.users }) := by
      simp [refresh_token, hd, hu, hne]
    refine ⟨hr, ?_⟩
    rw [hr]
    exact get_user_by_email_update_token tok.sub u none st.users hu
  · intro heq
    have hres : refresh_token tok st =
        (HRes.ok (create_access_token tok.sub st.counter,
            create_refresh_token tok.sub (st.counter + 1)),
          { users := update_token u (some (create_refresh_token tok.sub (st.counter + 1)))
              st.users,
            counter := st.counter + 2 }) := by
      simp [refresh_token, hd, hu, heq]
    have hrneq : create_refresh_token tok.sub (st.counter + 1) ≠ tok := by
      intro h
      have hnn : (create_refresh_token tok.sub (st.counter + 1)).nonce = tok.nonce := by
        rw [h]
      simp only [create_refresh_token] at hnn
      omega
    have hlook : get_user_by_email tok.sub (refresh_token tok st).2.users =
        some { u with refresh_token := some (create_refresh_token tok.sub (st.counter + 1)) } := by
      rw [hres]
      exact get_user_by_email_update_token tok.sub u
        (some (create_refresh_token tok.sub (st.counter + 1))) st.users hu
    have hne2 : ({ u with
        refresh_token := some (create_refresh_token tok.sub (st.counter + 1)) } : User).refresh_token ≠
        some tok := fun hcon => hrneq (Option.some.inj hcon)
    have key : ∀ st2 : AuthState, get_user_by_email tok.sub st2.users =
        some { u with refresh_token := some (create_refresh_token tok.sub (st.counter + 1)) } →
        refresh_token tok st2 =
          (HRes.err 401,
            { st2 with
              users := update_token
                { u with refresh_token := some (create_refresh_token tok.sub (st.counter + 1)) }
                none st2.users }) := by
      intro st2 hl
      simp [refresh_token, hd, hl, hne2]
    have hreplay : refresh_token tok (refresh_token tok st).2 =
        (HRes.err 401,
          { (refresh_token tok st).2 with
            users := update_token
              { u with refresh_token := some (create_refresh_token tok.sub (st.counter + 1)) }
              none (refresh_token tok st).2.users }) :=
      key (refresh_token tok st).2 hlook
    have hfinal : get_user_by_email tok.sub
        (refresh_token tok (refresh_token tok st).2).2.users =
        some { u with refresh_token := none } := by
      rw [hreplay]
      exact get_user_by_email_update_token tok.sub
        { u with refresh_token := some (create_refresh_token tok.sub (st.counter + 1)) }
        none (refresh_token tok st).2.users hlook
    exact ⟨create_access_token tok.sub st.counter,
      create_refresh_token tok.sub (st.counter + 1),
      by rw [hres], rfl, rfl, rfl, rfl, hrneq, hlook, by rw [hreplay], hfinal⟩

/-- C1 witness: with the fixture user holding the fixture refresh token, a
successful refresh followed by a replay of the old token is rejected 401. -/
theorem refresh_rotation_spec_witness :
    (refresh_token wTok (refresh_token wTok wState).2).1 = HRes.err 401 := by
  obtain ⟨a, r, h1, h2, h3, h4, h5, h6, h7, h8, h9⟩ :=
    (refresh_rotation_spec wState wTok wUser rfl (by decide) (by decide)).2 (by decide)
  exact h8

end Module12
